import Mathlib

/-
Verification development for the oracle_select repository.

The repository wraps the cx_Oracle driver: it opens a connection, executes a
statement, converts rows to dicts or named tuples (src/oracle_select/select.py),
formats SQL IN-lists (src/oracle_select/utils/format_list.py), and polls a
PeopleSoft process table (src/oracle_select/utils.py, process_monitor).

The driver (cx_Oracle) and the external libraries (pandas, IPython, time) are
abstracted: a DriverConn value records how the driver behaves for the executed
statement (whether execute and fetch succeed, the cursor description and the
raw rows), and the monitor's successive query results are a function from the
poll index to the status rows returned at that poll.  Python values held in
rows are modelled by the Value type; deepcopy is the identity on such pure
values.  Exceptional control flow is modelled explicitly: each operation
returns the rows it yields, the exception it raises, and the number of times
it closed each handle.
-/

namespace OracleSelect

/-! # Row materializer (select.py: makeDictFactory, makeNamedTupleFactory) -/

/-- A Python value appearing in a fetched row: either an ordinary scalar or a
LOB locator handle whose content has not been read yet. -/
inductive Value where
  | scalar (s : String)
  | lob (content : String)
  deriving DecidableEq

/-- Python's `str.lower()` as used on the column names.  (The library's string
lower-casing is defined by well-founded recursion on byte positions and so
does not reduce inside the kernel; this structurally recursive version maps
`Char.toLower` over the characters, which is what `str.lower()` does on the
ASCII column names Oracle reports.) -/
def pyLower (s : String) : String := String.mk (s.data.map Char.toLower)

/-- The guard both factories test on every value:
`isinstance(cx_Oracle.LOB, cx_Oracle.CLOB)` (select.py lines 14 and 37).
Its arguments are the two module-level classes, not the row value `arg`:
the class object `cx_Oracle.LOB` is an instance of `type`, not of the class
`cx_Oracle.CLOB`, so the test evaluates to False for every value and the
read branch is dead code. -/
def lobGuard (_arg : Value) : Bool := false

/-- `arg.read()`: reading a LOB handle yields its full content as an ordinary
in-memory value.  Only reachable through `lobGuard`. -/
def lobRead : Value → Value
  | .lob content => .scalar content
  | v => v

/-- The per-value body of the factories' loop: `v = arg.read()` (plus the
best-effort `arg.close()`) when the guard holds, otherwise `v = arg`. -/
def readValue (arg : Value) : Value :=
  if lobGuard arg then lobRead arg else arg

/-- `makeDictFactory` (select.py lines 6-26), with the cursor abstracted to its
description (the list of column names) and the factory merged with the inner
`createRow`: `col_names = [d[0].lower() for d in cursor.description]` and
`createRow(*args) = dict(zip(col_names, read_args))`.  The Python dict is
modelled as the association list produced by the zip (none of the claims
concern duplicate column names). -/
def makeDictFactory (description : List String) (args : List Value) :
    List (String × Value) :=
  List.zip (description.map pyLower) (args.map readValue)

/-- A named-tuple row: the record type's field names plus the row's values. -/
structure NTRow where
  fields : List String
  vals : List Value
  deriving DecidableEq

/-- `makeNamedTupleFactory` (select.py lines 28-49):
`fieldnames = [d[0].lower() for d in cursor.description]`,
`record = namedtuple('Record', field_names=fieldnames)`, and
`createRow(*args) = record._make(read_args)`.  (`_make` insists that the
number of values equals the number of fields; cursor rows always have exactly
one value per described column, so the check is not modelled.) -/
def makeNamedTupleFactory (description : List String) (args : List Value) :
    NTRow :=
  { fields := description.map pyLower
    vals := args.map readValue }

/-! # Query executor (select.py: DB.select) -/

/-- Connection parameters held by a `DB` instance (select.py lines 55-59). -/
structure DB where
  host : String
  username : String
  password : String
  schema : Option String

/-- The driver's behaviour for one executed statement: whether `c.execute`
succeeds, whether the subsequent fetch succeeds, and the cursor description
and raw rows of the result set.  The SQL text and bind variables are
abstracted into this record. -/
structure DriverConn where
  execOk : Bool
  fetchOk : Bool
  description : List String
  rows : List (List Value)

/-- The exceptions distinguished by the model. -/
inductive PyExc where
  | execError
  | fetchError
  | unboundLocalError
  deriving DecidableEq

/-- A row as returned to the caller: a dict, a named tuple, or (when `rowtype`
names neither factory, so no rowfactory is installed) the raw tuple. -/
inductive PyRow where
  | dict (kv : List (String × Value))
  | ntup (r : NTRow)
  | tuple (vs : List Value)
  deriving DecidableEq

/-- What one call to `DB.select` did: what it returned or raised, and how many
times it closed the cursor and the connection. -/
inductive SelectOutcome where
  | returned (rs : List PyRow)
  | raised (e : PyExc)
  deriving DecidableEq

structure SelectResult where
  outcome : SelectOutcome
  cursorCloses : Nat
  connCloses : Nat
  deriving DecidableEq

/-- The rowfactory installation (select.py lines 77-80): `dict` and
`namedtuple` install the corresponding factory; any other `rowtype` leaves the
cursor returning raw tuples. -/
def applyFactory (rowtype : String) (description : List String)
    (raw : List Value) : PyRow :=
  if rowtype = "dict" then .dict (makeDictFactory description raw)
  else if rowtype = "namedtuple" then .ntup (makeNamedTupleFactory description raw)
  else .tuple raw

/-- The fetch step of `DB.select` (lines 83-86): `fetchmany(fetch)` when
`fetch` is truthy, else `fetchall()`; `fetchmany(k)` returns the first at most
`k` rows of the result set. -/
def selectFetch (d : DriverConn) (fetch : Nat) : Except PyExc (List (List Value)) :=
  if d.fetchOk then .ok (if fetch ≠ 0 then d.rows.take fetch else d.rows)
  else .error .fetchError

/-- The `finally` block of the fetch `try` (lines 92-95):
`del r; c.close(); db.close()`.  When `r` was never bound on this path (the
fetch raised before assigning it), `del r` raises UnboundLocalError; the two
`close()` calls after it are then skipped and the new exception replaces the
in-flight one.  Returns the exception the block raises (if any) and how many
times it closed each handle. -/
def selectFinally (rBound : Bool) : Option PyExc × Nat × Nat :=
  if rBound then (none, 1, 1) else (some .unboundLocalError, 0, 0)

/-- `DB.select` (select.py lines 61-95).  The connection open always succeeds
(claims about connect failures are out of scope); an execute failure closes
cursor and connection in the `except` clause and re-raises; on the fetch path
the `try/except/else/finally` is modelled step by step, with
`rs = copy.deepcopy(r)` the identity on the pure row values. -/
def DB.select (_db : DB) (d : DriverConn) (fetch : Nat) (rowtype : String) :
    SelectResult :=
  if !d.execOk then
    { outcome := .raised .execError, cursorCloses := 1, connCloses := 1 }
  else
    match selectFetch d fetch with
    | .ok r =>
        match selectFinally true with
        | (some e2, cc, dc) => { outcome := .raised e2, cursorCloses := cc, connCloses := dc }
        | (none, cc, dc) =>
            { outcome := .returned (r.map (applyFactory rowtype d.description))
              cursorCloses := cc, connCloses := dc }
    | .error e =>
        match selectFinally false with
        | (some e2, cc, dc) => { outcome := .raised e2, cursorCloses := cc, connCloses := dc }
        | (none, cc, dc) => { outcome := .raised e, cursorCloses := cc, connCloses := dc }

/-- A concrete driver behaviour where the statement executes but the fetch
raises. -/
def fetchFailConn : DriverConn :=
  { execOk := true, fetchOk := false
    description := ["a"], rows := [[Value.scalar "x"]] }

def demoDB : DB := { host := "h", username := "u", password := "p", schema := none }

/-! # Claim theorems for the executor and the row factories -/

/-- C1: the claim says cursor and connection are closed exactly once on every
exit path of `DB.select`, with the original exception re-raised after cleanup
in the error cases.  On the fetch-error path the code does neither: `r` is
unbound when the `finally` block's `del r` runs, so `del r` raises
UnboundLocalError before `c.close()` and `db.close()`, the handles are never
closed, and the UnboundLocalError replaces the original fetch error.  This
theorem evaluates the model at such a driver behaviour. -/
theorem select_fetch_error_skips_close :
    (DB.select demoDB fetchFailConn 0 "dict").cursorCloses = 0 ∧
    (DB.select demoDB fetchFailConn 0 "dict").connCloses = 0 ∧
    (DB.select demoDB fetchFailConn 0 "dict").outcome =
      .raised .unboundLocalError := by
  refine ⟨rfl, rfl, rfl⟩

/-- C3: the claim (and the factories' own docstrings) say a LOB-typed value is
read fully into memory and its handle released, while every other value is
used as-is.  The guard the code actually tests,
`isinstance(cx_Oracle.LOB, cx_Oracle.CLOB)`, does not look at the value and is
always False, so a LOB value is passed through raw and never read: both
factories hand the unread handle to the caller. -/
theorem rowfactory_lob_unread :
    makeDictFactory ["DOC"] [Value.lob "hello"] =
      [("doc", Value.lob "hello")] ∧
    (makeNamedTupleFactory ["DOC"] [Value.lob "hello"]).vals =
      [Value.lob "hello"] := by
  refine ⟨by decide, by decide⟩

/-- C6: with a driver behaviour whose execute and fetch succeed, `DB.select`
with `fetch=0` returns exactly the whole result set (same row count for every
`rowtype`), and with `fetch=k>0` returns at most `k` rows. -/
theorem select_row_counts (db : DB) (d : DriverConn) (rowtype : String) (k : Nat)
    (h1 : d.execOk = true) (h2 : d.fetchOk = true) (hk : 0 < k) :
    (∃ rs, (DB.select db d 0 rowtype).outcome = .returned rs ∧
      rs.length = d.rows.length) ∧
    (∃ rs, (DB.select db d k rowtype).outcome = .returned rs ∧
      rs.length ≤ k) := by
  constructor
  · refine ⟨d.rows.map (applyFactory rowtype d.description), ?_, by simp⟩
    simp [DB.select, selectFetch, selectFinally, h1, h2]
  · refine ⟨(d.rows.take k).map (applyFactory rowtype d.description), ?_, ?_⟩
    · simp [DB.select, selectFetch, selectFinally, h1, h2, Nat.pos_iff_ne_zero.mp hk]
    · simp [List.length_take]

/-- Witness for C6 at a concrete driver behaviour (two rows, `fetch=1`). -/
theorem select_row_counts_witness :
    (∃ rs, (DB.select demoDB
        { execOk := true, fetchOk := true, description := ["a"],
          rows := [[Value.scalar "x"], [Value.scalar "y"]] } 0 "dict").outcome =
        .returned rs ∧ rs.length =
          ([[Value.scalar "x"], [Value.scalar "y"]] : List (List Value)).length) ∧
    (∃ rs, (DB.select demoDB
        { execOk := true, fetchOk := true, description := ["a"],
          rows := [[Value.scalar "x"], [Value.scalar "y"]] } 1 "dict").outcome =
        .returned rs ∧ rs.length ≤ 1) :=
  select_row_counts demoDB
    { execOk := true, fetchOk := true, description := ["a"],
      rows := [[Value.scalar "x"], [Value.scalar "y"]] }
    "dict" 1 rfl rfl (by decide)

/-- The first components of a zip are the first list truncated to the second
list's length. -/
theorem map_fst_zip_take {α β : Type} :
    ∀ (A : List α) (B : List β), (A.zip B).map Prod.fst = A.take B.length := by
  intro A
  induction A with
  | nil => intro B; simp
  | cons a as ih =>
      intro B
      cases B with
      | nil => simp
      | cons b bs => simp [List.take_succ_cons, ih bs]

/-- C8: every key of a dict row, and every field name of a named-tuple row, is
the corresponding cursor-description column name lower-cased, whatever casing
the driver reports: the dict keys are the lower-cased description (truncated
to the number of values zipped against it), and the named-tuple field names
are exactly the lower-cased description. -/
theorem row_keys_lowercase (description : List String) (args : List Value) :
    (makeDictFactory description args).map Prod.fst =
      (description.map pyLower).take args.length ∧
    (makeNamedTupleFactory description args).fields =
      description.map pyLower := by
  constructor
  · rw [makeDictFactory, map_fst_zip_take]
    simp
  · rfl

/-! # Chunked iteration (select.py: DB.select_iter)

`select_iter` opens a connection, executes, installs `makeDictFactory`, then
loops: `results = c.fetchmany(fetch_size); if not results: break; rs =
copy.deepcopy(results); yield rs`, with the limited variant maintaining a
cumulative counter `i` and looping `while i <= max_rows`.  The model computes
the list of yielded batches on the success path (execute and every fetch
succeed); `fetchmany(fetch_size)` on the remaining result set is
`List.take fetch_size`, after which the cursor holds `List.drop fetch_size`. -/

/-- The unlimited loop (select.py lines 142-149), run when `max_rows` is
falsy. -/
def iterNoLimit (rows : List (List Value)) (s : Nat) : List (List (List Value)) :=
  if h : rows.take s = [] then []
  else rows.take s :: iterNoLimit (rows.drop s) s
termination_by rows.length
decreasing_by
  have hs : s ≠ 0 := by rintro rfl; simp at h
  have hr : rows ≠ [] := by rintro rfl; simp at h
  simp only [List.length_drop]
  have := List.length_pos.mpr hr
  omega

/-- The limited loop (select.py lines 130-140): `i = 0; while i <= max_rows:
fetch, break on empty, i += len(rs), yield rs`. -/
def iterLimited (s m i : Nat) (rows : List (List Value)) : List (List (List Value)) :=
  if i ≤ m then
    if h : rows.take s = [] then []
    else rows.take s :: iterLimited s m (i + (rows.take s).length) (rows.drop s)
  else []
termination_by rows.length
decreasing_by
  have hs : s ≠ 0 := by rintro rfl; simp at h
  have hr : rows ≠ [] := by rintro rfl; simp at h
  simp only [List.length_drop]
  have := List.length_pos.mpr hr
  omega

/-- The dispatch on `max_rows` (select.py line 130): `if max_rows:` tests
truthiness, so `None` and `0` both take the unlimited loop. -/
def rawBatches (rows : List (List Value)) (s : Nat) :
    Option Nat → List (List (List Value))
  | some m => if m ≠ 0 then iterLimited s m 0 rows else iterNoLimit rows s
  | none => iterNoLimit rows s

/-- `DB.select_iter` (select.py lines 97-154) on its success path: the list of
batches the generator yields, each batch mapped through the installed
`makeDictFactory` (`copy.deepcopy` is the identity on the pure values). -/
def DB.select_iter (_db : DB) (description : List String)
    (rows : List (List Value)) (fetch_size : Nat) (max_rows : Option Nat) :
    List (List (List (String × Value))) :=
  (rawBatches rows fetch_size max_rows).map (List.map (makeDictFactory description))

/-! ## Loop lemmas -/

theorem take_nil_of_pos {α : Type} {s : Nat} (hs : 0 < s) {l : List α}
    (h : l.take s = []) : l = [] := by
  cases l with
  | nil => rfl
  | cons a t =>
      cases s with
      | zero => omega
      | succ u => simp [List.take_succ_cons] at h

theorem iterNoLimit_join_aux (s : Nat) (hs : 0 < s) :
    ∀ n rows, rows.length ≤ n → (iterNoLimit rows s).flatten = rows := by
  intro n
  induction n with
  | zero =>
      intro rows hle
      have hr : rows = [] := List.length_eq_zero.mp (Nat.le_zero.mp hle)
      subst hr
      rw [iterNoLimit]
      simp
  | succ n ih =>
      intro rows hle
      rw [iterNoLimit]
      split
      · rename_i h
        rw [take_nil_of_pos hs h]
        rfl
      · rename_i h
        have hr : rows ≠ [] := fun h0 => h (by simp [h0])
        have hlen : (rows.drop s).length ≤ n := by
          simp only [List.length_drop]
          have := List.length_pos.mpr hr
          omega
        simp [List.flatten, ih _ hlen, List.take_append_drop]

theorem iterNoLimit_join (s : Nat) (hs : 0 < s) (rows : List (List Value)) :
    (iterNoLimit rows s).flatten = rows :=
  iterNoLimit_join_aux s hs rows.length rows le_rfl

theorem iterNoLimit_sizes_aux (s : Nat) (hs : 0 < s) :
    ∀ n rows, rows.length ≤ n →
      ∀ b ∈ (iterNoLimit rows s).dropLast, b.length = s := by
  intro n
  induction n with
  | zero =>
      intro rows hle b hb
      have hr : rows = [] := List.length_eq_zero.mp (Nat.le_zero.mp hle)
      subst hr
      rw [iterNoLimit] at hb
      simp at hb
  | succ n ih =>
      intro rows hle b hb
      rw [iterNoLimit] at hb
      split at hb
      · simp at hb
      · rename_i h
        cases hrec : iterNoLimit (rows.drop s) s with
        | nil =>
            rw [hrec] at hb
            simp at hb
        | cons c cs =>
            rw [hrec] at hb
            have hb' : b = rows.take s ∨ b ∈ (c :: cs).dropLast := by
              simpa [List.dropLast_cons₂] using hb
            rcases hb' with hb' | hb'
            · subst hb'
              have hdropne : rows.drop s ≠ [] := by
                intro h0
                rw [h0, iterNoLimit] at hrec
                simp at hrec
              have hlt : s < rows.length := by
                by_contra hge
                push_neg at hge
                exact hdropne (List.drop_eq_nil_of_le hge)
              simp [List.length_take]
              omega
            · have hr : rows ≠ [] := fun h0 => h (by simp [h0])
              have hlen : (rows.drop s).length ≤ n := by
                simp only [List.length_drop]
                have := List.length_pos.mpr hr
                omega
              exact ih (rows.drop s) hlen b (by rw [hrec]; exact hb')

theorem iterLimited_total_aux (s m : Nat) :
    ∀ n rows i, rows.length ≤ n →
      ((iterLimited s m i rows).flatten).length + i ≤ max i (m + s) := by
  intro n
  induction n with
  | zero =>
      intro rows i hle
      have hr : rows = [] := List.length_eq_zero.mp (Nat.le_zero.mp hle)
      subst hr
      have he : iterLimited s m i [] = [] := by
        rw [iterLimited]
        split <;> simp
      rw [he]
      simpa using Nat.le_max_left i (m + s)
  | succ n ih =>
      intro rows i hle
      rw [iterLimited]
      split
      · rename_i him
        split
        · rename_i h
          simpa using Nat.le_max_left i (m + s)
        · rename_i h
          have hs : s ≠ 0 := by rintro rfl; simp at h
          have hr : rows ≠ [] := fun h0 => h (by simp [h0])
          have hpos : 0 < rows.length := List.length_pos.mpr hr
          have hlen : (rows.drop s).length ≤ n := by
            rw [List.length_drop]
            omega
          have hrec := ih (rows.drop s) (i + (rows.take s).length) hlen
          have htake : (rows.take s).length ≤ s := by
            rw [List.length_take]
            exact Nat.min_le_left _ _
          have hmax : i + (rows.take s).length ≤ m + s := Nat.add_le_add him htake
          rw [Nat.max_eq_right hmax] at hrec
          have hsplit :
              ((rows.take s ::
                  iterLimited s m (i + (rows.take s).length) (rows.drop s)).flatten).length
                = (rows.take s).length +
                  ((iterLimited s m (i + (rows.take s).length) (rows.drop s)).flatten).length := by
            rw [List.flatten_cons, List.length_append]
          rw [hsplit]
          have h1 : m + s ≤ max i (m + s) := Nat.le_max_right _ _
          omega
      · rename_i him
        simpa using Nat.le_max_left i (m + s)

theorem iterLimited_total (s m : Nat) (rows : List (List Value)) :
    ((iterLimited s m 0 rows).flatten).length ≤ m + s := by
  have h := iterLimited_total_aux s m rows.length rows 0 le_rfl
  simpa using h

/-! ## Claim theorems for select_iter -/

/-- C9: `max_rows=0` behaves exactly like `max_rows=None`, because
`if max_rows:` tests truthiness, not presence: both take the unlimited loop
that yields batches until a fetch returns no rows. -/
theorem select_iter_max_rows_zero_unlimited (db : DB) (description : List String)
    (rows : List (List Value)) (s : Nat) :
    DB.select_iter db description rows s (some 0) =
      DB.select_iter db description rows s none := rfl

/-- C7: with `max_rows=None` and `fetch_size=s>0`, every yielded batch except
possibly the last has exactly `s` rows, and the concatenation of the batches,
in order, is the full result set (each row through the dict factory). -/
theorem select_iter_batches_exact (db : DB) (description : List String)
    (rows : List (List Value)) (s : Nat) (hs : 0 < s) :
    (∀ b ∈ (DB.select_iter db description rows s none).dropLast, b.length = s) ∧
    (DB.select_iter db description rows s none).flatten =
      rows.map (makeDictFactory description) := by
  constructor
  · intro b hb
    have he : DB.select_iter db description rows s none =
        (iterNoLimit rows s).map (List.map (makeDictFactory description)) := rfl
    rw [he, ← List.map_dropLast] at hb
    rcases List.mem_map.mp hb with ⟨b', hb', rfl⟩
    rw [List.length_map]
    exact iterNoLimit_sizes_aux s hs rows.length rows le_rfl b' hb'
  · have he : DB.select_iter db description rows s none =
        (iterNoLimit rows s).map (List.map (makeDictFactory description)) := rfl
    rw [he, ← List.map_flatten, iterNoLimit_join s hs rows]

/-- A three-row result set. -/
def rows3 : List (List Value) :=
  [[Value.scalar "1"], [Value.scalar "2"], [Value.scalar "3"]]

/-- Witness for C7 at `fetch_size = 2` on a three-row result set. -/
theorem select_iter_batches_exact_witness :
    (0 : Nat) < 2 ∧
    (DB.select_iter demoDB ["a"] rows3 2 none).flatten =
      rows3.map (makeDictFactory ["a"]) :=
  ⟨by decide, (select_iter_batches_exact demoDB ["a"] rows3 2 (by decide)).2⟩

/-- A four-row result set. -/
def rows4 : List (List Value) :=
  [[Value.scalar "1"], [Value.scalar "2"], [Value.scalar "3"], [Value.scalar "4"]]

/-- C2 is false as stated: with `fetch_size = 2`, `max_rows = 2` and a four-row
result set, the loop condition `while i <= max_rows` still holds after the
first batch brings the count to exactly `max_rows`, so a second full batch is
fetched: 4 rows are yielded, exceeding `max_rows` by `fetch_size`, which is
more than `fetch_size - 1`. -/
theorem select_iter_overshoot_counterexample :
    (DB.select_iter demoDB ["a"] rows4 2 (some 2)).flatten.length = 4 ∧
    ¬((DB.select_iter demoDB ["a"] rows4 2 (some 2)).flatten.length ≤ 2 + (2 - 1)) := by
  have he : (DB.select_iter demoDB ["a"] rows4 2 (some 2)).flatten.length = 4 := by
    simp [DB.select_iter, rawBatches, rows4, iterLimited, List.flatten, makeDictFactory]
  exact ⟨he, by rw [he]; decide⟩

/-- C2 (amended): the limited loop continues while the cumulative count is at
most `max_rows` (it stops only once the count strictly exceeds `max_rows`,
still checked before fetching the next batch), so the total number of rows
yielded never exceeds `max_rows + fetch_size`. -/
theorem select_iter_overshoot_bound (db : DB) (description : List String)
    (rows : List (List Value)) (s m : Nat) (hm : 0 < m) :
    (DB.select_iter db description rows s (some m)).flatten.length ≤ m + s ∧
    (∀ i, m < i → iterLimited s m i rows = []) := by
  constructor
  · have h0 : DB.select_iter db description rows s (some m) =
        (iterLimited s m 0 rows).map (List.map (makeDictFactory description)) := by
      simp [DB.select_iter, rawBatches, Nat.pos_iff_ne_zero.mp hm]
    rw [h0, ← List.map_flatten, List.length_map]
    exact iterLimited_total s m rows
  · intro i hi
    rw [iterLimited]
    simp [Nat.not_le.mpr hi]

/-- Witness for C2's amended bound at `fetch_size = 2`, `max_rows = 2` on the
four-row result set (the bound `2 + 2` is attained there). -/
theorem select_iter_overshoot_bound_witness :
    (0 : Nat) < 2 ∧
    (DB.select_iter demoDB ["a"] rows4 2 (some 2)).flatten.length ≤ 2 + 2 :=
  ⟨by decide, (select_iter_overshoot_bound demoDB ["a"] rows4 2 2 (by decide)).1⟩

/-! # format_list (utils/format_list.py) -/

/-- A scalar item passed to `format_list`: a Python `str` or a number (the
only kinds the function distinguishes — `isinstance(item, str)`). -/
inductive PyScalar where
  | str (s : String)
  | int (n : Int)
  deriving DecidableEq

/-- The per-item rendering of `format_list`'s list comprehension:
a string item is wrapped in single quotes, anything else goes through
Python's `str()`. -/
def formatItem : PyScalar → String
  | .str s => "\x27" ++ s ++ "\x27"
  | .int n => toString n

/-- `format_list` (utils/format_list.py lines 1-43): raises ValueError on more
than 1000 items, otherwise joins the rendered items with a comma-space and
wraps the whole in parentheses when `parenthesis` is true.  The raised
ValueError is modelled as the `Except.error` carrying its message. -/
def format_list (items : List PyScalar) (parenthesis : Bool) :
    Except String String :=
  if items.length > 1000 then .error "Lists are limited to 1000 items."
  else
    let formatted := String.intercalate ", " (items.map formatItem)
    if parenthesis then .ok ("(" ++ formatted ++ ")") else .ok formatted

/-- C5: on at most 1000 items (so in particular on exactly 1000), `format_list`
succeeds and returns the items joined by comma-space — strings single-quoted,
non-strings rendered unquoted — wrapped in parentheses exactly when
`parenthesis` is true; on more than 1000 items it raises the ValueError and
produces nothing else. -/
theorem format_list_spec_correct (items : List PyScalar) (p : Bool) :
    (items.length ≤ 1000 →
      format_list items p = .ok
        (if p then
          "(" ++ String.intercalate ", " (items.map formatItem) ++ ")"
        else String.intercalate ", " (items.map formatItem))) ∧
    (1000 < items.length →
      format_list items p = .error "Lists are limited to 1000 items.") := by
  constructor
  · intro hle
    rw [format_list, if_neg (by omega)]
    cases p <;> rfl
  · intro hgt
    rw [format_list, if_pos (by omega)]

/-- Witness for C5: the spec's own example list, and a list of exactly 1000
items, both succeed, while a 1001-item list raises. -/
theorem format_list_spec_correct_witness :
    format_list [PyScalar.str "a", PyScalar.str "b", PyScalar.str "c"] true =
      .ok "(\x27a\x27, \x27b\x27, \x27c\x27)" ∧
    format_list (List.replicate 1000 (PyScalar.int 1)) false =
      .ok (String.intercalate ", "
        ((List.replicate 1000 (PyScalar.int 1)).map formatItem)) ∧
    format_list (List.replicate 1001 (PyScalar.int 1)) false =
      .error "Lists are limited to 1000 items." := by
  refine ⟨?_, ?_, ?_⟩
  · have h := (format_list_spec_correct
      [PyScalar.str "a", PyScalar.str "b", PyScalar.str "c"] true).1 (by decide)
    rw [h]
    rfl
  · have h := (format_list_spec_correct
      (List.replicate 1000 (PyScalar.int 1)) false).1
      (by rw [List.length_replicate])
    rw [h]
    exact congrArg Except.ok (if_neg (by decide))
  · exact (format_list_spec_correct
      (List.replicate 1001 (PyScalar.int 1)) false).2
      (by rw [List.length_replicate]; omega)

/-! # Job-status poller (utils.py: process_monitor)

`process_monitor(db, processes, freq, timeout, on_success, on_failure)` polls
`ps_pmn_prcslist` once per loop iteration, classifies each returned row's
`runstatus` with `set_status`, and acts on the classification.  Model choices:

* The successive query results `pd.DataFrame(db.select(prepared_sql))` are
  abstracted as `pollsFn : Nat → List StatusRow`, the rows returned at the
  n-th poll.
* Timing: iteration n begins at elapsed time `n * freq` (the `time.sleep(freq)`
  in the Working branch dominates; queries and display are instantaneous), so
  the loop guard `time.time() - start <= timeout` holds exactly for
  `n * freq ≤ timeout`; for `freq > 0` that is `n ≤ timeout / freq`, so the
  loop can start at most `timeout / freq + 1` iterations before the guard
  fails and `TimeOutError('Timeout reached.')` is raised.  That iteration
  budget is the structural fuel of `monitorGo`.
* A poll returning zero rows makes `pd.DataFrame([])` an empty DataFrame with
  no columns at all, so the attribute access `df.runstatus` raises
  AttributeError before any classification happens — the `isEmpty` branch.
* `utils.py` references `pd` and `TimeOutError` without importing or defining
  them; the model assumes the intended pandas import and timeout exception
  type, since every claim concerns the loop's logic, not the module's imports.
* The callbacks are recorded rather than executed: `successArgs` lists the
  arguments `on_success` would be invoked with (when supplied), and
  `failureCalls` counts invocations of `on_failure`.  `display`/`print`
  side effects are not modelled. -/

def WORKING_STATUSES : List Int := [5, 6, 7, 11, 14, 15, 16, 18]

def COMPLETE_STATUSES : List Int := [9]

/-- `set_status` (utils.py lines 92-99): 9 is Finished, the working codes are
Working, everything else is Failed. -/
def set_status (code : Int) : String :=
  if code ∈ COMPLETE_STATUSES then "Finished"
  else if code ∈ WORKING_STATUSES then "Working"
  else "Failed"

/-- One row of `ps_pmn_prcslist` as selected by the monitor's query. -/
structure StatusRow where
  prcsinstance : Int
  prcsname : String
  prcstype : String
  runcntlid : String
  runstatus : Int
  begindttm : String
  enddttm : String
  deriving DecidableEq

/-- `df['status'] = df.runstatus.apply(set_status)`: the polled rows paired
with their derived status classification. -/
def pollClassify (rows : List StatusRow) : List (StatusRow × String) :=
  rows.map (fun r => (r, set_status r.runstatus))

/-- How a `process_monitor` call ends. -/
inductive MonitorOutcome where
  | success (df : List (StatusRow × String))
  | jobFailure (df : List (StatusRow × String))
  | somethingWentWrong
  | attributeError
  | timeoutError
  deriving DecidableEq

structure MonitorResult where
  outcome : MonitorOutcome
  successArgs : List (List (StatusRow × String))
  failureCalls : Nat
  deriving DecidableEq

/-- The polling loop (utils.py lines 121-147), one iteration per fuel unit,
`n` the current iteration index.  Branch order follows the source: empty
DataFrame (AttributeError on `df.runstatus`), all-Finished (call `on_success`,
return `df`), any-Failed (call `on_failure`, raise), any-Working (sleep and
loop), otherwise raise; running out of fuel is the loop guard failing, which
raises the timeout. -/
def monitorGo (pollsFn : Nat → List StatusRow) (n : Nat) :
    Nat → MonitorResult
  | 0 => { outcome := .timeoutError, successArgs := [], failureCalls := 0 }
  | fuel + 1 =>
    let rows := pollsFn n
    if rows.isEmpty then
      { outcome := .attributeError, successArgs := [], failureCalls := 0 }
    else
      let df := pollClassify rows
      if df.all (fun p => p.2 == "Finished") then
        { outcome := .success df, successArgs := [df], failureCalls := 0 }
      else if df.any (fun p => p.2 == "Failed") then
        { outcome := .jobFailure df, successArgs := [], failureCalls := 1 }
      else if df.any (fun p => p.2 == "Working") then
        monitorGo pollsFn (n + 1) fuel
      else
        { outcome := .somethingWentWrong, successArgs := [], failureCalls := 0 }

/-- `process_monitor` under the timing model above: the loop guard admits the
iterations `n * freq ≤ timeout`, i.e. `timeout / freq + 1` of them when
`freq > 0`. -/
def process_monitor (pollsFn : Nat → List StatusRow) (freq timeout : Nat) :
    MonitorResult :=
  monitorGo pollsFn 0 (timeout / freq + 1)

/-- A poll on which the loop takes the Working branch: rows came back, not all
Finished, none Failed. -/
def workingPoll (rows : List StatusRow) : Bool :=
  !rows.isEmpty &&
    !((pollClassify rows).all (fun p => p.2 == "Finished")) &&
    !((pollClassify rows).any (fun p => p.2 == "Failed"))

/-! ## Poller lemmas -/

theorem set_status_trichotomy (c : Int) :
    set_status c = "Finished" ∨ set_status c = "Working" ∨
      set_status c = "Failed" := by
  rw [set_status]
  split
  · exact Or.inl rfl
  · split
    · exact Or.inr (Or.inl rfl)
    · exact Or.inr (Or.inr rfl)

theorem working_any (rows : List StatusRow)
    (hall : (pollClassify rows).all (fun p => p.2 == "Finished") = false)
    (hfail : (pollClassify rows).any (fun p => p.2 == "Failed") = false) :
    (pollClassify rows).any (fun p => p.2 == "Working") = true := by
  have hfail' : ∀ p ∈ pollClassify rows, p.2 ≠ "Failed" := by
    intro p hp heq
    have h1 : (pollClassify rows).any (fun p => p.2 == "Failed") = true :=
      List.any_eq_true.mpr ⟨p, hp, by simp [heq]⟩
    simp [h1] at hfail
  have hex : ∃ p ∈ pollClassify rows, p.2 ≠ "Finished" := by
    by_contra hc
    push_neg at hc
    have h1 : (pollClassify rows).all (fun p => p.2 == "Finished") = true :=
      List.all_eq_true.mpr (fun p hp => by simp [hc p hp])
    simp [h1] at hall
  obtain ⟨p, hp, hnf⟩ := hex
  obtain ⟨r, hr, rfl⟩ := List.mem_map.mp hp
  rcases set_status_trichotomy r.runstatus with h1 | h1 | h1
  · exact absurd h1 hnf
  · exact List.any_eq_true.mpr ⟨(r, set_status r.runstatus), hp, by simp [h1]⟩
  · exact absurd h1 (hfail' _ hp)

theorem workingPoll_spec (rows : List StatusRow) (h : workingPoll rows = true) :
    rows.isEmpty = false ∧
      (pollClassify rows).all (fun p => p.2 == "Finished") = false ∧
      (pollClassify rows).any (fun p => p.2 == "Failed") = false := by
  simp only [workingPoll, Bool.and_eq_true, Bool.not_eq_true'] at h
  exact ⟨h.1.1, h.1.2, h.2⟩

theorem monitorGo_step (pollsFn : Nat → List StatusRow) (n fuel : Nat)
    (h : workingPoll (pollsFn n) = true) :
    monitorGo pollsFn n (fuel + 1) = monitorGo pollsFn (n + 1) fuel := by
  obtain ⟨hne, hall, hfail⟩ := workingPoll_spec (pollsFn n) h
  have hw := working_any (pollsFn n) hall hfail
  rw [monitorGo]
  simp [hne, hall, hfail, hw]

theorem monitorGo_skip (pollsFn : Nat → List StatusRow) :
    ∀ (k n fuel : Nat),
      (∀ m, m < k → workingPoll (pollsFn (n + m)) = true) →
      monitorGo pollsFn n (k + fuel) = monitorGo pollsFn (n + k) fuel := by
  intro k
  induction k with
  | zero => intro n fuel h; simp
  | succ k ih =>
      intro n fuel h
      have h0 : workingPoll (pollsFn n) = true := by
        have hx := h 0 (Nat.succ_pos k)
        simpa using hx
      have he : (k + 1) + fuel = (k + fuel) + 1 := by omega
      rw [he, monitorGo_step pollsFn n (k + fuel) h0]
      have hrest := ih (n + 1) fuel (fun m hm => by
        have hx := h (m + 1) (by omega)
        have hy : n + (m + 1) = n + 1 + m := by omega
        rw [hy] at hx
        exact hx)
      rw [hrest]
      have hz : n + 1 + k = n + (k + 1) := by omega
      rw [hz]

theorem monitorGo_all_working (pollsFn : Nat → List StatusRow) :
    ∀ (fuel n : Nat),
      (∀ m, m < fuel → workingPoll (pollsFn (n + m)) = true) →
      (monitorGo pollsFn n fuel).outcome = .timeoutError := by
  intro fuel
  induction fuel with
  | zero => intro n h; rfl
  | succ fuel ih =>
      intro n h
      have h0 : workingPoll (pollsFn n) = true := by
        have hx := h 0 (Nat.succ_pos fuel)
        simpa using hx
      rw [monitorGo_step pollsFn n fuel h0]
      exact ih (n + 1) (fun m hm => by
        have hx := h (m + 1) (by omega)
        have hy : n + (m + 1) = n + 1 + m := by omega
        rw [hy] at hx
        exact hx)

theorem allFinished_eq_false_of_anyFailed (rows : List StatusRow)
    (h : (pollClassify rows).any (fun p => p.2 == "Failed") = true) :
    (pollClassify rows).all (fun p => p.2 == "Finished") = false := by
  obtain ⟨p, hp, hfp⟩ := List.any_eq_true.mp h
  obtain ⟨r, hr, rfl⟩ := List.mem_map.mp hp
  have h1 : set_status r.runstatus = "Failed" := by simpa using hfp
  by_contra hc
  rw [Bool.not_eq_false] at hc
  have h2 := List.all_eq_true.mp hc _ hp
  have h3 : set_status r.runstatus = "Finished" := by simpa using h2
  rw [h1] at h3
  exact absurd h3 (by decide)

theorem isEmpty_eq_false_of_anyFailed (rows : List StatusRow)
    (h : (pollClassify rows).any (fun p => p.2 == "Failed") = true) :
    rows.isEmpty = false := by
  obtain ⟨p, hp, _⟩ := List.any_eq_true.mp h
  obtain ⟨r, hr, rfl⟩ := List.mem_map.mp hp
  cases hrows : rows with
  | nil => rw [hrows] at hr; cases hr
  | cons a t => rfl

/-! ## Claim theorems for process_monitor -/

/-- C4: for `freq > 0`, (i) if the poll at iteration n (reached because all
earlier polls took the Working branch, and still inside the timeout window)
returns rows that all classify as Finished, `on_success` is invoked exactly
once with the full classified status table and that table is returned; (ii) if
that poll has any row classified Failed, `on_failure` is invoked once and the
generic job failure is raised; (iii) if every poll within the timeout window
takes the Working branch, the timeout is raised.  (Part (i) asks for a
non-empty poll: a zero-row poll never reaches the classification, see the
empty-poll theorems.) -/
theorem process_monitor_behavior (pollsFn : Nat → List StatusRow)
    (freq timeout : Nat) (hf : 0 < freq) :
    (∀ n, n * freq ≤ timeout →
      (∀ m, m < n → workingPoll (pollsFn m) = true) →
      (pollsFn n).isEmpty = false →
      (pollClassify (pollsFn n)).all (fun p => p.2 == "Finished") = true →
      process_monitor pollsFn freq timeout =
        { outcome := .success (pollClassify (pollsFn n)),
          successArgs := [pollClassify (pollsFn n)], failureCalls := 0 }) ∧
    (∀ n, n * freq ≤ timeout →
      (∀ m, m < n → workingPoll (pollsFn m) = true) →
      (pollClassify (pollsFn n)).any (fun p => p.2 == "Failed") = true →
      process_monitor pollsFn freq timeout =
        { outcome := .jobFailure (pollClassify (pollsFn n)),
          successArgs := [], failureCalls := 1 }) ∧
    ((∀ n, n * freq ≤ timeout → workingPoll (pollsFn n) = true) →
      (process_monitor pollsFn freq timeout).outcome = .timeoutError) := by
  refine ⟨?_, ?_, ?_⟩
  · intro n hn hw hne hall
    have hT : n ≤ timeout / freq := (Nat.le_div_iff_mul_le hf).mpr hn
    rw [process_monitor]
    have hsplit : timeout / freq + 1 = n + (timeout / freq - n + 1) := by omega
    rw [hsplit,
      monitorGo_skip pollsFn n 0 (timeout / freq - n + 1)
        (fun m hm => by simpa using hw m hm),
      Nat.zero_add, monitorGo]
    simp [hne, hall]
  · intro n hn hw hfail
    have hne := isEmpty_eq_false_of_anyFailed (pollsFn n) hfail
    have hall := allFinished_eq_false_of_anyFailed (pollsFn n) hfail
    have hT : n ≤ timeout / freq := (Nat.le_div_iff_mul_le hf).mpr hn
    rw [process_monitor]
    have hsplit : timeout / freq + 1 = n + (timeout / freq - n + 1) := by omega
    rw [hsplit,
      monitorGo_skip pollsFn n 0 (timeout / freq - n + 1)
        (fun m hm => by simpa using hw m hm),
      Nat.zero_add, monitorGo]
    simp [hne, hall, hfail]
  · intro hwork
    rw [process_monitor]
    apply monitorGo_all_working
    intro m hm
    have hmle : m * freq ≤ timeout := (Nat.le_div_iff_mul_le hf).mp (by omega)
    simpa using hwork m hmle

/-- A process row still running (`runstatus = 7`, a working code). -/
def rowWorking : StatusRow :=
  { prcsinstance := 1, prcsname := "P1", prcstype := "SQR Report",
    runcntlid := "rc1", runstatus := 7, begindttm := "t0", enddttm := "" }

/-- A finished process row (`runstatus = 9`). -/
def rowFinished : StatusRow :=
  { prcsinstance := 1, prcsname := "P1", prcstype := "SQR Report",
    runcntlid := "rc1", runstatus := 9, begindttm := "t0", enddttm := "t1" }

/-- A poll sequence: the process is Working at the first poll and Finished
from the second on. -/
def pollsW : Nat → List StatusRow :=
  fun n => if n = 0 then [rowWorking] else [rowFinished]

/-- Witness for C4: with `freq = 1`, `timeout = 10` and `pollsW`, the second
poll is all-Finished, `on_success` is called once with the classified table,
and the table is returned. -/
theorem process_monitor_behavior_witness :
    process_monitor pollsW 1 10 =
      { outcome := .success (pollClassify [rowFinished]),
        successArgs := [pollClassify [rowFinished]], failureCalls := 0 } := by
  have h := (process_monitor_behavior pollsW 1 10 (by decide)).1 1 (by omega)
    (fun m hm => by
      have hm0 : m = 0 := by omega
      subst hm0
      decide)
    (by decide) (by decide)
  simpa [pollsW] using h

/-- The poll sequence every claim about empty polls uses: the monitored query
returns zero rows at every poll. -/
def emptyPolls : Nat → List StatusRow := fun _ => []

/-- C10 is false as stated: when a poll returns zero status rows, the code
does not treat the batch as Complete — `pd.DataFrame([])` has no `runstatus`
column, so `df.runstatus` raises AttributeError; `on_success` is never
invoked and nothing is returned. -/
theorem process_monitor_empty_poll_counterexample :
    (process_monitor emptyPolls 5 100).outcome = .attributeError ∧
    (process_monitor emptyPolls 5 100).successArgs = [] := by
  exact ⟨rfl, rfl⟩

/-- C10 (amended): a poll that returns zero status rows (reached within the
timeout window after Working polls) makes `process_monitor` raise an
AttributeError when building the status column on the column-less empty
DataFrame, instead of treating the batch as Complete; `on_success` is not
invoked and nothing is returned. -/
theorem process_monitor_empty_poll_raises (pollsFn : Nat → List StatusRow)
    (freq timeout n : Nat) (hf : 0 < freq) (hn : n * freq ≤ timeout)
    (hw : ∀ m, m < n → workingPoll (pollsFn m) = true)
    (he : pollsFn n = []) :
    process_monitor pollsFn freq timeout =
      { outcome := .attributeError, successArgs := [], failureCalls := 0 } := by
  have hT : n ≤ timeout / freq := (Nat.le_div_iff_mul_le hf).mpr hn
  rw [process_monitor]
  have hsplit : timeout / freq + 1 = n + (timeout / freq - n + 1) := by omega
  rw [hsplit,
    monitorGo_skip pollsFn n 0 (timeout / freq - n + 1)
      (fun m hm => by simpa using hw m hm),
    Nat.zero_add, monitorGo]
  simp [he]

/-- Witness for C10's amended statement at the all-empty poll sequence. -/
theorem process_monitor_empty_poll_raises_witness :
    process_monitor emptyPolls 5 100 =
      { outcome := .attributeError, successArgs := [], failureCalls := 0 } :=
  process_monitor_empty_poll_raises emptyPolls 5 100 0 (by decide) (by decide)
    (fun m hm => absurd hm (by omega)) rfl

end OracleSelect
